import Mathlib

/-!
Verification development for the Tempo worklog synchronization client
(`j2toggl_core/tempo_api_client.py`).

The Python code is shallowly embedded:
* a Python `str` that undergoes percent-encoding is modelled as its sequence
  of Unicode code points (`List Nat`); other strings are Lean `String`s;
* a Python `datetime` is modelled as an integer count of seconds on a
  timeline (`Int`); the calendar date rendered by `strftime("%Y-%m-%d")`
  is modelled injectively by the day index `t / 86400`, and
  `strftime("%H:%M:00")` by a `TimeOfDay` value with the seconds field
  forced to zero, exactly as the format string forces `00`;
* HTTP traffic is modelled by passing the server's response function
  explicitly; mutation of a `WorkLog` object is modelled by returning the
  updated record; a raised `SyncException` / `ValueError` is an
  `Except` error carrying the message.
-/

namespace Tempo

/-! ### Python strings and `urllib.parse` percent-encoding

`urllib.parse.quote(s, safe='')` UTF-8-encodes the string and
percent-escapes every byte that is not an unreserved character
(ASCII letters, digits, `_ . - ~`).  `urllib.parse.unquote` converts
`%XX` groups (together with the literal ASCII bytes around them) back to
bytes and UTF-8-decodes each maximal ASCII run, passing non-ASCII
characters through unchanged (CPython semantics, `errors='replace'`). -/

/-- UTF-8 encoding of one Unicode scalar value (as used by `str.encode`). -/
def utf8Encode (c : Nat) : List Nat :=
  if c < 128 then [c]
  else if c < 2048 then [192 + c / 64, 128 + c % 64]
  else if c < 65536 then [224 + c / 4096, 128 + c / 64 % 64, 128 + c % 64]
  else [240 + c / 262144, 128 + c / 4096 % 64, 128 + c / 64 % 64, 128 + c % 64]

/-- Decoding of one UTF-8 sequence: given the first byte and the bytes
after it, the code point and the bytes left over.  A malformed lead or
continuation yields the replacement character U+FFFD (`errors='replace'`). -/
def utf8DecodeOne (b : Nat) (rest : List Nat) : Nat × List Nat :=
  if b < 128 then (b, rest)
  else if b < 194 then (65533, rest)
  else if b < 224 then
    match rest with
    | b1 :: rest2 =>
      if 128 ≤ b1 ∧ b1 < 192 then ((b - 192) * 64 + (b1 - 128), rest2)
      else (65533, b1 :: rest2)
    | [] => (65533, [])
  else if b < 240 then
    match rest with
    | b1 :: b2 :: rest2 =>
      let cp := (b - 224) * 4096 + (b1 - 128) * 64 + (b2 - 128)
      if 128 ≤ b1 ∧ b1 < 192 ∧ 128 ≤ b2 ∧ b2 < 192 ∧ 2048 ≤ cp ∧
          ¬(55296 ≤ cp ∧ cp < 57344) then (cp, rest2)
      else (65533, b1 :: b2 :: rest2)
    | l => (65533, l.drop 1)
  else if b < 245 then
    match rest with
    | b1 :: b2 :: b3 :: rest2 =>
      let cp := (b - 240) * 262144 + (b1 - 128) * 4096 + (b2 - 128) * 64 + (b3 - 128)
      if 128 ≤ b1 ∧ b1 < 192 ∧ 128 ≤ b2 ∧ b2 < 192 ∧ 128 ≤ b3 ∧ b3 < 192 ∧
          65536 ≤ cp ∧ cp < 1114112 then (cp, rest2)
      else (65533, b1 :: b2 :: b3 :: rest2)
    | l => (65533, l.drop (l.length - 1))
  else (65533, rest)

theorem utf8DecodeOne_length (b : Nat) (rest : List Nat) :
    (utf8DecodeOne b rest).2.length ≤ rest.length := by
  rcases rest with _ | ⟨b1, _ | ⟨b2, _ | ⟨b3, r3⟩⟩⟩ <;>
    (simp only [utf8DecodeOne]; split_ifs <;> simp <;> omega)

/-- UTF-8 decoding of a byte sequence back to code points. -/
def utf8Decode : List Nat → List Nat
  | [] => []
  | b :: rest =>
    (utf8DecodeOne b rest).1 :: utf8Decode (utf8DecodeOne b rest).2
termination_by l => l.length
decreasing_by
  exact Nat.lt_succ_of_le (utf8DecodeOne_length b rest)

/-- A valid Unicode scalar value: what a code point of an encodable Python
`str` (no lone surrogates) is. -/
def ValidScalar (c : Nat) : Prop := c < 1114112 ∧ (c < 55296 ∨ 57344 ≤ c)

instance (c : Nat) : Decidable (ValidScalar c) := by
  unfold ValidScalar; infer_instance

/-- The bytes `urllib.parse.quote` leaves unescaped: ASCII letters, digits
and `_.-~` (the `safe=''` call adds nothing to this always-safe set). -/
def isUnreserved (b : Nat) : Bool :=
  (65 ≤ b && b ≤ 90) || (97 ≤ b && b ≤ 122) || (48 ≤ b && b ≤ 57) ||
  b = 45 || b = 46 || b = 95 || b = 126

/-- Code point of the upper-case hexadecimal digit for `n < 16`
(`quote` emits upper-case hex). -/
def hexUpperDigit (n : Nat) : Nat := if n < 10 then 48 + n else 55 + n

/-- Percent-escape one byte as `quote` does: unreserved bytes pass through,
every other byte becomes `%XX`. -/
def byteQuote (b : Nat) : List Nat :=
  if isUnreserved b then [b] else [37, hexUpperDigit (b / 16), hexUpperDigit (b % 16)]

/-- `urllib.parse.quote(s, safe='')` on a string given as code points. -/
def quoteCodes (s : List Nat) : List Nat :=
  (s.flatMap utf8Encode).flatMap byteQuote

/-- Numeric value of a hexadecimal digit character, if it is one
(`unquote` accepts both cases). -/
def hexVal? (c : Nat) : Option Nat :=
  if 48 ≤ c ∧ c ≤ 57 then some (c - 48)
  else if 65 ≤ c ∧ c ≤ 70 then some (c - 55)
  else if 97 ≤ c ∧ c ≤ 102 then some (c - 87)
  else none

/-- Worker for `unquote`: `acc` holds the pending byte run (reversed);
ASCII characters and decoded `%XX` groups join the run, a non-ASCII
character flushes it through the UTF-8 decoder and passes through. -/
def unquoteGo (acc : List Nat) : List Nat → List Nat
  | [] => utf8Decode acc.reverse
  | c :: rest =>
    if c = 37 then
      match rest with
      | a :: b :: rest2 =>
        match hexVal? a, hexVal? b with
        | some ha, some hb => unquoteGo ((ha * 16 + hb) :: acc) rest2
        | _, _ => unquoteGo (37 :: acc) (a :: b :: rest2)
      | [a] => unquoteGo (37 :: acc) [a]
      | [] => unquoteGo (37 :: acc) []
    else if c < 128 then unquoteGo (c :: acc) rest
    else utf8Decode acc.reverse ++ c :: unquoteGo [] rest
termination_by l => l.length
decreasing_by all_goals (simp_all <;> omega)

/-- `urllib.parse.unquote(s)` on a string given as code points. -/
def unquoteCodes (s : List Nat) : List Nat := unquoteGo [] s

/-- Percent-escape one byte as `quote_plus` does: like `byteQuote` but a
space becomes `+`. -/
def byteQuotePlus (b : Nat) : List Nat :=
  if b = 32 then [43] else byteQuote b

/-- `urllib.parse.quote_plus(s, safe='')`, the encoder `urlencode` applies
to every key and value. -/
def quotePlusCodes (s : List Nat) : List Nat :=
  (s.flatMap utf8Encode).flatMap byteQuotePlus

/-- Code points of a Lean string (model of a Python `str` literal). -/
def strCodes (s : String) : List Nat := s.data.map Char.toNat

/-- Back from (ASCII) code points to a Lean string. -/
def codesStr (l : List Nat) : String := ⟨l.map Char.ofNat⟩

/-- `quote_plus` as a `String → String` function, for URL building. -/
def quotePlusStr (s : String) : String := codesStr (quotePlusCodes (strCodes s))

/-! ### Decimal rendering and parsing

Models Python `str(n)` / f-string interpolation of an integer, and `int(s)`.
(`int` also tolerates surrounding whitespace and underscores, which no call
site here produces; that tolerance is not modelled.) -/

/-- The character of the decimal digit `d < 10`. -/
def digitChar (d : Nat) : Char := Char.ofNat (48 + d)

/-- Decimal digits, least significant first; `fuel` bounds the recursion
depth (any `fuel ≥ n` is exact). -/
def natDigitsRevGo : Nat → Nat → List Nat
  | 0, n => [n]
  | fuel + 1, n => if n < 10 then [n] else n % 10 :: natDigitsRevGo fuel (n / 10)

/-- Decimal digits of `n`, least significant first. -/
def natDigitsRev (n : Nat) : List Nat := natDigitsRevGo n n

/-- `str(n)` for a non-negative integer. -/
def natStr (n : Nat) : String := ⟨(natDigitsRev n).reverse.map digitChar⟩

/-- `str(n)` for an integer. -/
def intStr (n : Int) : String :=
  if n < 0 then "-" ++ natStr (-n).toNat else natStr n.toNat

/-- Numeric value of a decimal digit character, if it is one. -/
def digitVal? (c : Char) : Option Nat :=
  if 48 ≤ c.toNat ∧ c.toNat ≤ 57 then some (c.toNat - 48) else none

/-- Accumulating decimal evaluation of a digit-character list; `none` as
soon as a non-digit appears. -/
def digitsVal : List Char → Nat → Option Nat
  | [], acc => some acc
  | c :: rest, acc =>
    match digitVal? c with
    | some d => digitsVal rest (acc * 10 + d)
    | none => none

/-- Digit-string evaluation: empty input is invalid. -/
def parseDigits (l : List Char) : Option Nat :=
  if l.isEmpty then none else digitsVal l 0

/-- `int(s)` on the character list of `s`: optional sign, then digits;
`none` models the raised `ValueError`. -/
def pyIntChars : List Char → Option Int
  | [] => none
  | c :: rest =>
    if c = '-' then (parseDigits rest).map (fun m => -(m : Int))
    else if c = '+' then (parseDigits rest).map (fun m => (m : Int))
    else (parseDigits (c :: rest)).map (fun m => (m : Int))

/-- `s.startswith(pre)` on character lists. -/
def listStartsWith : List Char → List Char → Bool
  | [], _ => true
  | _ :: _, [] => false
  | p :: ps, c :: cs => p = c && listStartsWith ps cs

/-- The part of `s` after the first occurrence of `sep`: models
`s.split(sep, 1)[1]` (`none` models the `IndexError` when `sep` is
absent). -/
def splitOnceRest (sep : Char) : List Char → Option (List Char)
  | [] => none
  | c :: rest => if c = sep then some rest else splitOnceRest sep rest

/-! ### Timestamps

A Python `datetime` is a point on a timeline, modelled as whole seconds
(`Int`).  `strftime("%Y-%m-%d")` renders the calendar date, injective in
the day index `t // 86400`, modelled by that index; `strftime("%H:%M:00")`
renders hour and minute of the day with the seconds position hard-coded to
`00` by the format string.  `dateutil.parser.parse(date + "T" + time)`
recombines the two parts.  `datetime.timedelta(seconds=d)` addition and
`datetime` subtraction are exact integer arithmetic. -/

/-- Day index of a timestamp (`strftime("%Y-%m-%d")` determines exactly
this value). -/
def dayOf (t : Int) : Int := t / 86400

/-- Second of the day of a timestamp. -/
def sodOf (t : Int) : Nat := (t % 86400).toNat

/-- An `HH:MM:SS` time-of-day string, kept structured. -/
structure TimeOfDay where
  hh : Nat
  mm : Nat
  ss : Nat
deriving DecidableEq, Repr

/-- `t.strftime("%H:%M:00")`: hour and minute of `t`, seconds forced
to `00`. -/
def strfHM00 (t : Int) : TimeOfDay :=
  { hh := sodOf t / 3600, mm := sodOf t % 3600 / 60, ss := 0 }

/-- `dateutil.parser.parse(startDate + "T" + startTime)`. -/
def parseDateTime (day : Int) (tod : TimeOfDay) : Int :=
  day * 86400 + (tod.hh * 3600 + tod.mm * 60 + tod.ss : Nat)

/-- `strftime("%Y-%m-%d")` as a string (day index rendered in decimal). -/
def dateStr (t : Int) : String := intStr (dayOf t)

/-! ### Data model -/

/-- Modelled from the spec: the `WorkLog` entity of `j2toggl_core/worklog.py`
(that file is not among the sources; spec §3 gives its fields).
`primaryId`/`second_id` are nullable until assigned, `key` is either a real
issue key or the synthetic `"ISSUE-<id>"` sentinel, `activity` is optional
(a Python string, kept as code points because it is the percent-coded
field); `startTime`/`endTime` are timestamps and `duration` is in whole
seconds. -/
structure WorkLog where
  primaryId : Option Int := none
  second_id : Option Int := none
  key : Option String := none
  description : String := ""
  startTime : Int := 0
  endTime : Int := 0
  duration : Int := 0
  activity : Option (List Nat) := none
deriving DecidableEq, Repr

/-- The `issue` object inside a wire worklog record: may carry a `key`,
an `id`, both, or neither. -/
structure Issue where
  key : Option String := none
  id : Option Nat := none
deriving DecidableEq, Repr

/-- One entry of the wire `attributes.values` array. -/
structure AttrKV where
  key : String
  value : List Nat
deriving DecidableEq, Repr

/-- The wire `attributes` object, whose `values` member may be absent. -/
structure AttrValues where
  values : Option (List AttrKV) := none
deriving DecidableEq, Repr

/-- A worklog record as returned by the read endpoint.  Fields the
translator reads unconditionally are required (a record missing them is a
hard `KeyError` failure, outside the modelled behaviours); `issue` and
`attributes` are consulted only after an `in` test and are optional. -/
structure TempoRecord where
  tempoWorklogId : Int
  issue : Option Issue := none
  description : String
  timeSpentSeconds : Int
  startDate : Int
  startTime : TimeOfDay
  attributes : Option AttrValues := none
deriving DecidableEq, Repr

/-- The JSON value found at `metadata.count`: an integer, or any other
JSON value (the `isinstance(records_count, int)` check distinguishes
exactly these). -/
inductive CountField where
  | cint (n : Int)
  | cother (raw : String)
deriving DecidableEq, Repr

/-- One HTTP response of the read endpoint: status, raw body text, and the
decoded JSON page (consulted only when the status is 200). -/
structure PageResp where
  status : Nat
  text : String
  count : CountField
  results : List TempoRecord
deriving Repr

/-- The value written to the request's `issueId` member: the `int(...)` of
a synthetic key, or the raw (string) id obtained from the issue lookup
endpoint. -/
inductive IssueIdWire where
  | num (n : Int)
  | str (s : String)
deriving DecidableEq, Repr

/-- The request body built by `__worklog_to_dict`. -/
structure WireRequest where
  timeSpentSeconds : Int
  startDate : Int
  startTime : TimeOfDay
  description : String
  authorAccountId : String
  attributes : Option (List AttrKV) := none
  issueId : Option IssueIdWire := none
  issueKey : Option String := none
deriving DecidableEq, Repr

/-- One HTTP response of the create/update/delete endpoint; on success the
JSON body carries `tempoWorklogId` (already an integer: `int()` of it is
the identity). -/
structure MutResp where
  status : Nat
  text : String
  tempoWorklogId : Int
deriving DecidableEq, Repr

/-- Observable outcome of one mutation call: the URL addressed, the
boolean result, and the (possibly mutated) worklog object. -/
structure MutResult where
  url : String
  success : Bool
  worklog : WorkLog
deriving DecidableEq, Repr

/-! ### URL building and the synchronization error message -/

/-- `TempoClient.__tempo_rest_api_url`. -/
def tempoRestApiUrl : String := "https://api.tempo.io"

/-- `TempoClient.__make_tempo_api_uri`. -/
def makeTempoApiUri (relativeUrl : String) : String :=
  tempoRestApiUrl ++ "/4/" ++ relativeUrl

/-- `TempoClient.__PAGE_SIZE`. -/
def PAGE_SIZE : Nat := 50

/-- `urllib.parse.urlencode(params)`: `key=value` pairs joined with `&`,
keys and values passed through `quote_plus`. -/
def urlencode (params : List (String × String)) : String :=
  String.intercalate "&" (params.map fun p => quotePlusStr p.1 ++ "=" ++ quotePlusStr p.2)

/-- The query dict built for one page request in `get_worklogs` (insertion
order of the Python dict). -/
def worklogsParams (startDate endDate : Int) (accountId : String) (pageIndex : Nat) :
    List (String × String) :=
  [("from", dateStr startDate), ("to", dateStr endDate),
   ("offset", natStr (pageIndex * PAGE_SIZE)), ("limit", natStr PAGE_SIZE),
   ("userId", accountId)]

/-- The formatted message `"{method_name}: url: {url} status {error_code},
error {error_message}"` raised as a `SyncException` on a non-200 page
response. -/
def syncErrorMessage (methodName url : String) (status : Nat) (text : String) : String :=
  methodName ++ ": url: " ++ url ++ " status " ++ natStr status ++ ", error " ++ text

/-- The fixed `SyncException` message for a non-integer page count. -/
def countSchemaMessage : String := "Page count metadata MUST BE integer"

/-! ### Record translation, read direction (`_load_worklogs_page`) -/

/-- Translation of one wire record into a fresh `WorkLog` (one iteration of
the `for` loop of `_load_worklogs_page`). -/
def loadWorklog (r : TempoRecord) : WorkLog :=
  { second_id := some r.tempoWorklogId
    key :=
      match r.issue with
      | some issue =>
        match issue.key with
        | some k => some k
        | none =>
          match issue.id with
          | some i => some ("ISSUE-" ++ natStr i)
          | none => none
      | none => none
    description := r.description
    startTime := parseDateTime r.startDate r.startTime
    endTime := parseDateTime r.startDate r.startTime + r.timeSpentSeconds
    duration := r.timeSpentSeconds
    activity :=
      match r.attributes with
      | some attrs =>
        match attrs.values with
        | some vs =>
          if vs.isEmpty then none
          else
            match vs.find? (fun x => x.key == "_Activity_") with
            | some activityAttr => some (unquoteCodes activityAttr.value)
            | none => none
        | none => none
      | none => none }

/-- `TempoClient._load_worklogs_page`. -/
def loadWorklogsPage (rs : List TempoRecord) : List WorkLog := rs.map loadWorklog

/-! ### Paginated fetch (`get_worklogs`)

The HTTP session is modelled by the function `server` from the page index
(the only datum that varies between the requests of one fetch) to the
response.  The `while True:` loop is given explicit fuel; `none` means the
fuel ran out before the loop exited.  The result carries the returned
`tsr_list` together with the final value of `page_index`, i.e. the number
of page requests issued. -/

/-- The loop body of `get_worklogs`, with `fuel` bounding the remaining
iterations. -/
def getWorklogsGo (server : Nat → PageResp) (startDate endDate : Int) (accountId : String) :
    Nat → Nat → List WorkLog → Option (Except String (List WorkLog × Nat))
  | 0, _, _ => none
  | fuel + 1, pageIndex, tsrList =>
    let methodUri := makeTempoApiUri "worklogs"
    let params := worklogsParams startDate endDate accountId pageIndex
    let r := server pageIndex
    if r.status ≠ 200 then
      some (.error (syncErrorMessage "get_worklogs"
        (methodUri ++ "?" ++ urlencode params) r.status r.text))
    else
      match r.count with
      | .cother _ => some (.error countSchemaMessage)
      | .cint recordsCount =>
        let tsrList2 := tsrList ++ loadWorklogsPage r.results
        if recordsCount < (PAGE_SIZE : Int) then some (.ok (tsrList2, pageIndex + 1))
        else getWorklogsGo server startDate endDate accountId fuel (pageIndex + 1) tsrList2

/-- `TempoClient.get_worklogs`. -/
def get_worklogs (server : Nat → PageResp) (startDate endDate : Int) (accountId : String)
    (fuel : Nat) : Option (Except String (List WorkLog × Nat)) :=
  getWorklogsGo server startDate endDate accountId fuel 0 []

/-- The page a truthful backend holding `records` serves for `pageIndex`
(honours `offset`/`limit` and reports the page's record count). -/
def honestServer (records : List TempoRecord) (pageIndex : Nat) : PageResp :=
  let page := (records.drop (pageIndex * PAGE_SIZE)).take PAGE_SIZE
  { status := 200, text := "", count := .cint page.length, results := page }

/-! ### Record translation, write direction (`__worklog_to_dict`) -/

/-- `TempoClient.__worklog_to_dict`.  `resolveIssueId` stands for
`_get_issue_id_from_key` (its result is the raw JSON `id`, a string, or
`None`); the returned list records the keys the resolver was called on.
An `.error` models the `ValueError` raised by `int()` on a key that starts
with `"ISSUE-"` but does not continue with an integer literal. -/
def worklogToDict (resolveIssueId : String → Option String) (accountId : String)
    (wl : WorkLog) : Except String (WireRequest × List String) :=
  let base : WireRequest := {
    timeSpentSeconds := wl.duration
    startDate := dayOf wl.startTime
    startTime := strfHM00 wl.startTime
    description := wl.description
    authorAccountId := accountId
    attributes := wl.activity.map fun a => [{ key := "_Activity_", value := quoteCodes a }] }
  match wl.key with
  | some k =>
    if k = "" then
      -- `worklog.key` is falsy: logs "No issue key available" and emits no
      -- issue member.
      .ok (base, [])
    else if listStartsWith "ISSUE-".data k.data then
      match splitOnceRest '-' k.data with
      | some restChars =>
        match pyIntChars restChars with
        | some issueId => .ok ({ base with issueId := some (.num issueId) }, [])
        | none => .error "ValueError: invalid literal for int"
      | none => .error "IndexError"
    else
      match resolveIssueId k with
      | some issueId =>
        if issueId = "" then .ok ({ base with issueKey := some k }, [k])
        else .ok ({ base with issueId := some (.str issueId) }, [k])
      | none => .ok ({ base with issueKey := some k }, [k])
  | none => .ok (base, [])

/-- Hands the write-direction body back to the read direction, as the
spec's round-trip property prescribes: the body's fields under the read
schema, together with a server-assigned `tempoWorklogId` (which the
property ignores). -/
def requestToRecord (tempoWorklogId : Int) (d : WireRequest) : TempoRecord :=
  { tempoWorklogId := tempoWorklogId
    issue := none
    description := d.description
    timeSpentSeconds := d.timeSpentSeconds
    startDate := d.startDate
    startTime := d.startTime
    attributes := d.attributes.map fun vs => { values := some vs } }

/-! ### Mutations (`add_worklog`, `update_worklog`, `delete_worklog`) -/

/-- `str()` of a nullable integer (Python renders `None` as `"None"`). -/
def strOptInt : Option Int → String
  | some n => intStr n
  | none => "None"

/-- `TempoClient.add_worklog`; `post` is the session's POST. -/
def add_worklog (resolveIssueId : String → Option String) (accountId : String)
    (post : String → WireRequest → MutResp) (worklog : WorkLog) :
    Except String MutResult :=
  let methodUri := makeTempoApiUri "worklogs"
  match worklogToDict resolveIssueId accountId worklog with
  | .error e => .error e
  | .ok (data, _) =>
    let r := post methodUri data
    if r.status = 200 then
      .ok { url := methodUri, success := true,
            worklog := { worklog with second_id := some r.tempoWorklogId } }
    else
      .ok { url := methodUri, success := false, worklog := worklog }

/-- `TempoClient.update_worklog`; `put` is the session's PUT. -/
def update_worklog (resolveIssueId : String → Option String) (accountId : String)
    (put : String → WireRequest → MutResp) (worklog : WorkLog) :
    Except String MutResult :=
  let methodUri := makeTempoApiUri ("worklogs/" ++ strOptInt worklog.second_id)
  match worklogToDict resolveIssueId accountId worklog with
  | .error e => .error e
  | .ok (data, _) =>
    let r := put methodUri data
    if r.status = 200 then
      .ok { url := methodUri, success := true,
            worklog := { worklog with second_id := some r.tempoWorklogId } }
    else
      .ok { url := methodUri, success := false, worklog := worklog }

/-- `requests.Response.ok`: true exactly when the status code is below 400
(covers 1xx, 2xx and 3xx alike). -/
def response_ok (status : Nat) : Bool := status < 400

/-- `TempoClient.delete_worklog`; `deleteReq` is the session's DELETE.
Returns the URL addressed together with `r.ok`. -/
def delete_worklog (deleteReq : String → MutResp) (worklog : WorkLog) : String × Bool :=
  let methodUri := makeTempoApiUri ("worklogs/" ++ strOptInt worklog.second_id)
  (methodUri, response_ok (deleteReq methodUri).status)

/-! ### Lemmas: percent-encoding round trip -/

theorem isUnreserved_lt (b : Nat) (h : isUnreserved b = true) : b < 128 ∧ b ≠ 37 := by
  unfold isUnreserved at h
  simp only [Bool.or_eq_true, Bool.and_eq_true, decide_eq_true_eq] at h
  omega

theorem hexVal?_hexUpperDigit (n : Nat) (h : n < 16) :
    hexVal? (hexUpperDigit n) = some n := by
  unfold hexVal? hexUpperDigit
  split_ifs <;> simp_all <;> omega

theorem unquoteGo_flatMap_byteQuote (bytes : List Nat) :
    ∀ acc, (∀ b ∈ bytes, b < 256) →
      unquoteGo acc (bytes.flatMap byteQuote) = utf8Decode (acc.reverse ++ bytes) := by
  induction bytes with
  | nil =>
    intro acc _
    simp [unquoteGo]
  | cons b bs ih =>
    intro acc hlt
    have hb : b < 256 := hlt b (by simp)
    have hbs : ∀ x ∈ bs, x < 256 := fun x hx => hlt x (by simp [hx])
    by_cases hu : isUnreserved b = true
    · have hb128 := (isUnreserved_lt b hu).1
      have hb37 := (isUnreserved_lt b hu).2
      have hq : byteQuote b = [b] := by simp [byteQuote, hu]
      rw [List.flatMap_cons, hq]
      show unquoteGo acc (b :: bs.flatMap byteQuote) = _
      rw [unquoteGo.eq_def]
      simp only []
      rw [if_neg hb37, if_pos hb128, ih (b :: acc) hbs]
      simp
    · have hq : byteQuote b = [37, hexUpperDigit (b / 16), hexUpperDigit (b % 16)] := by
        simp [byteQuote, hu]
      rw [List.flatMap_cons, hq]
      show unquoteGo acc (37 :: hexUpperDigit (b / 16) :: hexUpperDigit (b % 16) ::
        bs.flatMap byteQuote) = _
      rw [unquoteGo.eq_def]
      simp only [if_true]
      rw [hexVal?_hexUpperDigit (b / 16) (by omega), hexVal?_hexUpperDigit (b % 16) (by omega)]
      show unquoteGo ((b / 16 * 16 + b % 16) :: acc) (bs.flatMap byteQuote) = _
      have hbb : b / 16 * 16 + b % 16 = b := by omega
      rw [hbb, ih (b :: acc) hbs]
      simp

theorem utf8Encode_bytes_lt (c : Nat) (hc : c < 1114112) :
    ∀ b ∈ utf8Encode c, b < 256 := by
  intro b hb
  unfold utf8Encode at hb
  split_ifs at hb <;> simp_all <;> omega

theorem utf8DecodeOne_encode (c : Nat) (hlt : c < 1114112)
    (hsur : c < 55296 ∨ 57344 ≤ c) (rest : List Nat) :
    utf8DecodeOne ((utf8Encode c).headD 0) ((utf8Encode c).tail ++ rest) = (c, rest) := by
  by_cases h1 : c < 128
  · simp [utf8Encode, utf8DecodeOne, h1]
  · by_cases h2 : c < 2048
    · have e1 : ¬(192 + c / 64 < 128) := by omega
      have e2 : ¬(192 + c / 64 < 194) := by omega
      have e3 : 192 + c / 64 < 224 := by omega
      have e4 : 128 ≤ 128 + c % 64 ∧ 128 + c % 64 < 192 := by omega
      simp [utf8Encode, utf8DecodeOne, h1, h2, e1, e2, e3, e4]
      omega
    · by_cases h3 : c < 65536
      · have e1 : ¬(224 + c / 4096 < 128) := by omega
        have e2 : ¬(224 + c / 4096 < 194) := by omega
        have e3 : ¬(224 + c / 4096 < 224) := by omega
        have e4 : 224 + c / 4096 < 240 := by omega
        simp [utf8Encode, utf8DecodeOne, h1, h2, h3, e1, e2, e3, e4]
        split_ifs with hc
        · simp only [Prod.mk.injEq]
          exact ⟨by omega, trivial⟩
        · omega
      · have e1 : ¬(240 + c / 262144 < 128) := by omega
        have e2 : ¬(240 + c / 262144 < 194) := by omega
        have e3 : ¬(240 + c / 262144 < 224) := by omega
        have e4 : ¬(240 + c / 262144 < 240) := by omega
        have e5 : 240 + c / 262144 < 245 := by omega
        simp [utf8Encode, utf8DecodeOne, h1, h2, h3, e1, e2, e3, e4, e5]
        split_ifs with hc
        · simp only [Prod.mk.injEq]
          exact ⟨by omega, trivial⟩
        · omega

theorem utf8Encode_ne_nil (c : Nat) : utf8Encode c ≠ [] := by
  unfold utf8Encode
  split_ifs <;> simp

theorem utf8Decode_encode_cons (c : Nat) (hc : ValidScalar c) (rest : List Nat) :
    utf8Decode (utf8Encode c ++ rest) = c :: utf8Decode rest := by
  obtain ⟨hlt, hsur⟩ := hc
  have hd := utf8DecodeOne_encode c hlt hsur rest
  have hsplit : utf8Encode c ++ rest =
      (utf8Encode c).headD 0 :: ((utf8Encode c).tail ++ rest) := by
    cases h : utf8Encode c with
    | nil => exact absurd h (utf8Encode_ne_nil c)
    | cons b tail => simp
  rw [hsplit, utf8Decode, hd]

theorem utf8Decode_flatMap_encode (s : List Nat) (hs : ∀ c ∈ s, ValidScalar c) :
    utf8Decode (s.flatMap utf8Encode) = s := by
  induction s with
  | nil => simp [utf8Decode]
  | cons c cs ih =>
    rw [List.flatMap_cons, utf8Decode_encode_cons c (hs c (by simp)),
      ih (fun x hx => hs x (by simp [hx]))]

/-- `unquote(quote(s, safe=''))` is the identity on every encodable Python
string (sequence of Unicode scalar values). -/
theorem unquote_quote_id (s : List Nat) (hs : ∀ c ∈ s, ValidScalar c) :
    unquoteCodes (quoteCodes s) = s := by
  unfold unquoteCodes quoteCodes
  rw [unquoteGo_flatMap_byteQuote _ []
    (by
      intro b hb
      rw [List.mem_flatMap] at hb
      obtain ⟨c, hc, hbc⟩ := hb
      exact utf8Encode_bytes_lt c (hs c hc).1 b hbc)]
  exact utf8Decode_flatMap_encode s hs

/-! ### Lemmas: decimal round trip -/

theorem digitVal?_digitChar (d : Nat) (h : d < 10) :
    digitVal? (digitChar d) = some d := by
  interval_cases d <;> decide

theorem natDigitsRevGo_lt (fuel : Nat) : ∀ n, n ≤ fuel → ∀ d ∈ natDigitsRevGo fuel n, d < 10 := by
  induction fuel with
  | zero =>
    intro n hn d hd
    simp only [natDigitsRevGo, List.mem_singleton] at hd
    omega
  | succ fuel ih =>
    intro n hn d hd
    rw [natDigitsRevGo] at hd
    split_ifs at hd with h
    · simp only [List.mem_singleton] at hd
      omega
    · simp only [List.mem_cons] at hd
      rcases hd with h1 | h2
      · omega
      · exact ih (n / 10) (by omega) d h2

theorem natDigitsRev_lt (n : Nat) : ∀ d ∈ natDigitsRev n, d < 10 :=
  natDigitsRevGo_lt n n (Nat.le_refl n)

theorem natDigitsRev_ne_nil (n : Nat) : natDigitsRev n ≠ [] := by
  unfold natDigitsRev
  cases n with
  | zero => simp [natDigitsRevGo]
  | succ m =>
    rw [natDigitsRevGo]
    split_ifs <;> simp

theorem digitsVal_append (l1 l2 : List Char) (acc : Nat) :
    digitsVal (l1 ++ l2) acc =
      match digitsVal l1 acc with
      | some a => digitsVal l2 a
      | none => none := by
  induction l1 generalizing acc with
  | nil => simp [digitsVal]
  | cons c cs ih =>
    simp only [List.cons_append, digitsVal]
    cases digitVal? c with
    | some d => exact ih (acc * 10 + d)
    | none => rfl

theorem digitsVal_natDigitsGo (fuel : Nat) : ∀ n, n ≤ fuel → ∀ acc,
    digitsVal ((natDigitsRevGo fuel n).reverse.map digitChar) acc =
      some (acc * 10 ^ (natDigitsRevGo fuel n).length + n) := by
  induction fuel with
  | zero =>
    intro n hn acc
    have hz : n = 0 := by omega
    subst hz
    simp [natDigitsRevGo, digitsVal, digitVal?_digitChar 0 (by omega)]
  | succ fuel ih =>
    intro n hn acc
    by_cases h : n < 10
    · rw [natDigitsRevGo, if_pos h]
      simp [digitsVal, digitVal?_digitChar n h]
    · rw [natDigitsRevGo, if_neg h]
      simp only [List.reverse_cons, List.map_append, List.map, List.length_cons]
      rw [digitsVal_append, ih (n / 10) (by omega) acc]
      simp only [digitsVal, digitVal?_digitChar (n % 10) (by omega), Option.some.injEq]
      rw [pow_succ, ← mul_assoc]
      generalize acc * 10 ^ (natDigitsRevGo fuel (n / 10)).length = A
      omega

theorem digitsVal_natDigits (n : Nat) : ∀ acc,
    digitsVal ((natDigitsRev n).reverse.map digitChar) acc =
      some (acc * 10 ^ (natDigitsRev n).length + n) :=
  digitsVal_natDigitsGo n n (Nat.le_refl n)

theorem parseDigits_natDigits (n : Nat) :
    parseDigits ((natDigitsRev n).reverse.map digitChar) = some n := by
  have hne : (natDigitsRev n).reverse.map digitChar ≠ [] := by
    simp [natDigitsRev_ne_nil n]
  rw [parseDigits, if_neg (by simpa using hne), digitsVal_natDigits n 0]
  simp

theorem pyIntChars_natStr (n : Nat) : pyIntChars (natStr n).data = some (n : Int) := by
  have hd : (natStr n).data = (natDigitsRev n).reverse.map digitChar := rfl
  rw [hd]
  rcases hrev : (natDigitsRev n).reverse with _ | ⟨c, cs⟩
  · exact absurd (by simpa using congrArg List.reverse hrev) (natDigitsRev_ne_nil n)
  · have hc10 : c < 10 := by
      refine natDigitsRev_lt n c ?_
      rw [← List.mem_reverse, hrev]
      simp
    have hne1 : ¬(digitChar c = '-') := by interval_cases c <;> decide
    have hne2 : ¬(digitChar c = '+') := by interval_cases c <;> decide
    simp only [List.map, pyIntChars, if_neg hne1, if_neg hne2]
    have hback : digitChar c :: List.map digitChar cs =
        (natDigitsRev n).reverse.map digitChar := by
      rw [hrev]
      rfl
    rw [hback, parseDigits_natDigits n]
    rfl

/-! ### Lemmas: synthetic-key strings -/

theorem splitOnceRest_ISSUE (s : String) :
    splitOnceRest '-' ("ISSUE-" ++ s).data = some s.data := by
  rw [String.data_append]
  have hi : ("ISSUE-").data = ['I', 'S', 'S', 'U', 'E', '-'] := rfl
  rw [hi]
  simp [splitOnceRest]

theorem listStartsWith_ISSUE (s : String) :
    listStartsWith "ISSUE-".data ("ISSUE-" ++ s).data = true := by
  rw [String.data_append]
  have hi : ("ISSUE-").data = ['I', 'S', 'S', 'U', 'E', '-'] := rfl
  rw [hi]
  simp [listStartsWith]

/-! ### Lemmas: timestamps -/

theorem parseDateTime_strfHM00 (t : Int) :
    parseDateTime (dayOf t) (strfHM00 t) = t - t % 60 := by
  unfold parseDateTime dayOf strfHM00 sodOf
  dsimp only
  have h1 : ((t % 86400).toNat : Int) = t % 86400 := by omega
  generalize hs : (t % 86400).toNat = s at h1 ⊢
  omega

/-! ### Lemmas: the page loop -/

theorem loadWorklogsPage_append (a b : List TempoRecord) :
    loadWorklogsPage (a ++ b) = loadWorklogsPage a ++ loadWorklogsPage b :=
  List.map_append _ _ _

theorem honestServer_status (records : List TempoRecord) (i : Nat) :
    (honestServer records i).status = 200 := rfl

theorem honestServer_text (records : List TempoRecord) (i : Nat) :
    (honestServer records i).text = "" := rfl

theorem honestServer_count (records : List TempoRecord) (i : Nat) :
    (honestServer records i).count =
      .cint (((records.drop (i * PAGE_SIZE)).take PAGE_SIZE).length : Int) := rfl

theorem honestServer_results (records : List TempoRecord) (i : Nat) :
    (honestServer records i).results = (records.drop (i * PAGE_SIZE)).take PAGE_SIZE := rfl

theorem getWorklogsGo_succ (server : Nat → PageResp) (startDate endDate : Int)
    (accountId : String) (fuel pageIndex : Nat) (tsrList : List WorkLog) :
    getWorklogsGo server startDate endDate accountId (fuel + 1) pageIndex tsrList =
      if (server pageIndex).status ≠ 200 then
        some (.error (syncErrorMessage "get_worklogs"
          (makeTempoApiUri "worklogs" ++ "?" ++
            urlencode (worklogsParams startDate endDate accountId pageIndex))
          (server pageIndex).status (server pageIndex).text))
      else
        match (server pageIndex).count with
        | .cother _ => some (.error countSchemaMessage)
        | .cint recordsCount =>
          if recordsCount < (PAGE_SIZE : Int) then
            some (.ok (tsrList ++ loadWorklogsPage (server pageIndex).results, pageIndex + 1))
          else
            getWorklogsGo server startDate endDate accountId fuel (pageIndex + 1)
              (tsrList ++ loadWorklogsPage (server pageIndex).results) := rfl

theorem getWorklogsGo_succ_err (server : Nat → PageResp) (startDate endDate : Int)
    (accountId : String) (fuel pageIndex : Nat) (tsrList : List WorkLog)
    (hstatus : (server pageIndex).status ≠ 200) :
    getWorklogsGo server startDate endDate accountId (fuel + 1) pageIndex tsrList =
      some (.error (syncErrorMessage "get_worklogs"
        (makeTempoApiUri "worklogs" ++ "?" ++
          urlencode (worklogsParams startDate endDate accountId pageIndex))
        (server pageIndex).status (server pageIndex).text)) := by
  rw [getWorklogsGo_succ, if_pos hstatus]

theorem getWorklogsGo_succ_cother (server : Nat → PageResp) (startDate endDate : Int)
    (accountId : String) (fuel pageIndex : Nat) (tsrList : List WorkLog) (raw : String)
    (hstatus : (server pageIndex).status = 200)
    (hcount : (server pageIndex).count = .cother raw) :
    getWorklogsGo server startDate endDate accountId (fuel + 1) pageIndex tsrList =
      some (.error countSchemaMessage) := by
  rw [getWorklogsGo_succ, hstatus, hcount, if_neg (by omega)]

theorem getWorklogsGo_succ_cint (server : Nat → PageResp) (startDate endDate : Int)
    (accountId : String) (fuel pageIndex : Nat) (tsrList : List WorkLog) (n : Int)
    (hstatus : (server pageIndex).status = 200)
    (hcount : (server pageIndex).count = .cint n) :
    getWorklogsGo server startDate endDate accountId (fuel + 1) pageIndex tsrList =
      if n < (PAGE_SIZE : Int) then
        some (.ok (tsrList ++ loadWorklogsPage (server pageIndex).results, pageIndex + 1))
      else
        getWorklogsGo server startDate endDate accountId fuel (pageIndex + 1)
          (tsrList ++ loadWorklogsPage (server pageIndex).results) := by
  rw [getWorklogsGo_succ, hstatus, hcount, if_neg (by omega)]

theorem getWorklogsGo_honest (records : List TempoRecord) (startDate endDate : Int)
    (accountId : String) :
    ∀ fuel pageIndex acc,
      (records.drop (pageIndex * PAGE_SIZE)).length / PAGE_SIZE + 1 ≤ fuel →
      getWorklogsGo (honestServer records) startDate endDate accountId fuel pageIndex acc =
        some (.ok (acc ++ loadWorklogsPage (records.drop (pageIndex * PAGE_SIZE)),
          pageIndex + ((records.drop (pageIndex * PAGE_SIZE)).length / PAGE_SIZE + 1))) := by
  intro fuel
  induction fuel with
  | zero =>
    intro pageIndex acc h
    exact absurd h (Nat.not_succ_le_zero _)
  | succ fuel ih =>
    intro pageIndex acc h
    have h50 : PAGE_SIZE = 50 := rfl
    rw [getWorklogsGo_succ_cint (honestServer records) startDate endDate accountId fuel
      pageIndex acc (((records.drop (pageIndex * PAGE_SIZE)).take PAGE_SIZE).length : Int)
      (honestServer_status records pageIndex) (honestServer_count records pageIndex),
      honestServer_results]
    by_cases hlen : (records.drop (pageIndex * PAGE_SIZE)).length < PAGE_SIZE
    · have hpage : (records.drop (pageIndex * PAGE_SIZE)).take PAGE_SIZE =
          records.drop (pageIndex * PAGE_SIZE) :=
        List.take_of_length_le (by omega)
      have hdiv : (records.drop (pageIndex * PAGE_SIZE)).length / PAGE_SIZE = 0 :=
        Nat.div_eq_of_lt hlen
      have hc : (((records.drop (pageIndex * PAGE_SIZE)).take PAGE_SIZE).length : Int) <
          (PAGE_SIZE : Int) := by
        rw [hpage]
        exact_mod_cast hlen
      rw [if_pos hc, hpage, hdiv]
    · have hlen50 : ((records.drop (pageIndex * PAGE_SIZE)).take PAGE_SIZE).length =
          PAGE_SIZE := by
        rw [List.length_take]
        omega
      have hc : ¬ ((((records.drop (pageIndex * PAGE_SIZE)).take PAGE_SIZE).length : Int) <
          (PAGE_SIZE : Int)) := by
        rw [hlen50]
        omega
      have hdrop : records.drop ((pageIndex + 1) * PAGE_SIZE) =
          (records.drop (pageIndex * PAGE_SIZE)).drop PAGE_SIZE := by
        rw [List.drop_drop]
        ring_nf
      have hL : (records.drop ((pageIndex + 1) * PAGE_SIZE)).length =
          (records.drop (pageIndex * PAGE_SIZE)).length - PAGE_SIZE := by
        rw [hdrop, List.length_drop]
      have hfuel : (records.drop ((pageIndex + 1) * PAGE_SIZE)).length / PAGE_SIZE + 1 ≤
          fuel := by
        rw [h50] at hL h hlen ⊢
        omega
      rw [if_neg hc, ih (pageIndex + 1)
        (acc ++ loadWorklogsPage ((records.drop (pageIndex * PAGE_SIZE)).take PAGE_SIZE)) hfuel]
      simp only [Option.some.injEq, Except.ok.injEq, Prod.mk.injEq]
      constructor
      · rw [hdrop, List.append_assoc, ← loadWorklogsPage_append, List.take_append_drop]
      · rw [h50] at hL hlen ⊢
        omega

theorem getWorklogsGo_error (server : Nat → PageResp) (startDate endDate : Int)
    (accountId : String) (k : Nat)
    (hgood : ∀ j, j < k → (server j).status = 200 ∧
      ∃ n : Int, (server j).count = .cint n ∧ (PAGE_SIZE : Int) ≤ n)
    (hbad : (server k).status ≠ 200) :
    ∀ fuel pageIndex acc, pageIndex ≤ k → k < pageIndex + fuel →
      getWorklogsGo server startDate endDate accountId fuel pageIndex acc =
        some (.error (syncErrorMessage "get_worklogs"
          (makeTempoApiUri "worklogs" ++ "?" ++
            urlencode (worklogsParams startDate endDate accountId k))
          (server k).status (server k).text)) := by
  intro fuel
  induction fuel with
  | zero =>
    intro pageIndex acc h1 h2
    exact absurd h2 (by omega)
  | succ fuel ih =>
    intro pageIndex acc h1 h2
    by_cases hk : pageIndex = k
    · subst hk
      exact getWorklogsGo_succ_err server startDate endDate accountId fuel pageIndex acc hbad
    · obtain ⟨hst, n, hcnt, hge⟩ := hgood pageIndex (by omega)
      rw [getWorklogsGo_succ_cint server startDate endDate accountId fuel pageIndex acc n
        hst hcnt, if_neg (by omega)]
      exact ih (pageIndex + 1) _ (by omega) (by omega)

theorem getWorklogsGo_schemaErr (server : Nat → PageResp) (startDate endDate : Int)
    (accountId : String) (k : Nat) (raw : String)
    (hgood : ∀ j, j < k → (server j).status = 200 ∧
      ∃ n : Int, (server j).count = .cint n ∧ (PAGE_SIZE : Int) ≤ n)
    (hst : (server k).status = 200) (hbad : (server k).count = .cother raw) :
    ∀ fuel pageIndex acc, pageIndex ≤ k → k < pageIndex + fuel →
      getWorklogsGo server startDate endDate accountId fuel pageIndex acc =
        some (.error countSchemaMessage) := by
  intro fuel
  induction fuel with
  | zero =>
    intro pageIndex acc h1 h2
    exact absurd h2 (by omega)
  | succ fuel ih =>
    intro pageIndex acc h1 h2
    by_cases hk : pageIndex = k
    · subst hk
      exact getWorklogsGo_succ_cother server startDate endDate accountId fuel pageIndex acc
        raw hst hbad
    · obtain ⟨hstj, n, hcnt, hge⟩ := hgood pageIndex (by omega)
      rw [getWorklogsGo_succ_cint server startDate endDate accountId fuel pageIndex acc n
        hstj hcnt, if_neg (by omega)]
      exact ih (pageIndex + 1) _ (by omega) (by omega)

theorem getWorklogsGo_ok_loop (server : Nat → PageResp) (startDate endDate : Int)
    (accountId : String) (counts : Nat → Int)
    (hstat : ∀ j, (server j).status = 200)
    (hcnt : ∀ j, (server j).count = .cint (counts j)) :
    ∀ fuel pageIndex acc ws reqs,
      getWorklogsGo server startDate endDate accountId fuel pageIndex acc =
        some (.ok (ws, reqs)) →
      pageIndex < reqs ∧ counts (reqs - 1) < (PAGE_SIZE : Int) ∧
        ∀ j, pageIndex ≤ j → j < reqs - 1 → ¬ counts j < (PAGE_SIZE : Int) := by
  intro fuel
  induction fuel with
  | zero =>
    intro pageIndex acc ws reqs hrun
    exact absurd hrun (by simp [getWorklogsGo])
  | succ fuel ih =>
    intro pageIndex acc ws reqs hrun
    rw [getWorklogsGo_succ_cint server startDate endDate accountId fuel pageIndex acc
      (counts pageIndex) (hstat pageIndex) (hcnt pageIndex)] at hrun
    by_cases hlt : counts pageIndex < (PAGE_SIZE : Int)
    · rw [if_pos hlt] at hrun
      simp only [Option.some.injEq, Except.ok.injEq, Prod.mk.injEq] at hrun
      obtain ⟨hws, hreq⟩ := hrun
      refine ⟨by omega, ?_, ?_⟩
      · have hr : reqs - 1 = pageIndex := by omega
        rw [hr]
        exact hlt
      · intro j hj1 hj2
        omega
    · rw [if_neg hlt] at hrun
      obtain ⟨h1, h2, h3⟩ := ih (pageIndex + 1) _ ws reqs hrun
      refine ⟨by omega, h2, ?_⟩
      intro j hj1 hj2
      by_cases hjp : j = pageIndex
      · subst hjp
        exact hlt
      · exact h3 j (by omega) hj2

/-! ### Lemmas: the record translator -/

theorem worklogToDict_base (resolveIssueId : String → Option String) (accountId : String)
    (wl : WorkLog) (d : WireRequest) (calls : List String)
    (h : worklogToDict resolveIssueId accountId wl = .ok (d, calls)) :
    d.timeSpentSeconds = wl.duration ∧ d.startDate = dayOf wl.startTime ∧
    d.startTime = strfHM00 wl.startTime ∧ d.description = wl.description ∧
    d.authorAccountId = accountId ∧
    d.attributes = wl.activity.map
      (fun a => [{ key := "_Activity_", value := quoteCodes a }]) := by
  unfold worklogToDict at h
  rcases hkey : wl.key with _ | k <;> rw [hkey] at h <;> dsimp only at h
  · simp only [Except.ok.injEq, Prod.mk.injEq] at h
    obtain ⟨hd, hc⟩ := h
    subst hd
    exact ⟨rfl, rfl, rfl, rfl, rfl, rfl⟩
  · split_ifs at h with h1 h2
    · simp only [Except.ok.injEq, Prod.mk.injEq] at h
      obtain ⟨hd, hc⟩ := h
      subst hd
      exact ⟨rfl, rfl, rfl, rfl, rfl, rfl⟩
    · rcases hsp : splitOnceRest '-' k.data with _ | restChars <;> rw [hsp] at h <;> dsimp only at h
      · exact absurd h (by simp)
      · rcases hpi : pyIntChars restChars with _ | m <;> rw [hpi] at h <;> dsimp only at h
        · exact absurd h (by simp)
        · simp only [Except.ok.injEq, Prod.mk.injEq] at h
          obtain ⟨hd, hc⟩ := h
          subst hd
          exact ⟨rfl, rfl, rfl, rfl, rfl, rfl⟩
    · rcases hres : resolveIssueId k with _ | sid <;> rw [hres] at h <;> dsimp only at h
      · simp only [Except.ok.injEq, Prod.mk.injEq] at h
        obtain ⟨hd, hc⟩ := h
        subst hd
        exact ⟨rfl, rfl, rfl, rfl, rfl, rfl⟩
      · split_ifs at h
        · simp only [Except.ok.injEq, Prod.mk.injEq] at h
          obtain ⟨hd, hc⟩ := h
          subst hd
          exact ⟨rfl, rfl, rfl, rfl, rfl, rfl⟩
        · simp only [Except.ok.injEq, Prod.mk.injEq] at h
          obtain ⟨hd, hc⟩ := h
          subst hd
          exact ⟨rfl, rfl, rfl, rfl, rfl, rfl⟩

theorem natStr_append_ne_empty (pre : String) (n : Nat) (hpre : pre.length ≠ 0) :
    pre ++ natStr n ≠ "" := by
  intro hEq
  have hlen := congrArg String.length hEq
  rw [String.length_append] at hlen
  have h0 : ("" : String).length = 0 := rfl
  omega

theorem worklogToDict_synthetic (resolveIssueId : String → Option String)
    (accountId : String) (wl : WorkLog) (n : Nat)
    (hkey : wl.key = some ("ISSUE-" ++ natStr n)) :
    worklogToDict resolveIssueId accountId wl =
      .ok ({ timeSpentSeconds := wl.duration, startDate := dayOf wl.startTime,
             startTime := strfHM00 wl.startTime, description := wl.description,
             authorAccountId := accountId,
             attributes := wl.activity.map
               (fun a => [{ key := "_Activity_", value := quoteCodes a }]),
             issueId := some (.num (n : Int)), issueKey := none }, []) := by
  have hne : ("ISSUE-" ++ natStr n) ≠ "" :=
    natStr_append_ne_empty "ISSUE-" n (by decide)
  unfold worklogToDict
  rw [hkey]
  show (if "ISSUE-" ++ natStr n = "" then _ else _) = _
  rw [if_neg hne, if_pos (listStartsWith_ISSUE (natStr n)), splitOnceRest_ISSUE (natStr n)]
  dsimp only
  rw [pyIntChars_natStr n]

theorem loadWorklog_roundTrip_fields (resolveIssueId : String → Option String)
    (accountId : String) (wl : WorkLog) (d : WireRequest) (calls : List String) (tid : Int)
    (h : worklogToDict resolveIssueId accountId wl = .ok (d, calls))
    (hval : ∀ a, wl.activity = some a → ∀ c ∈ a, ValidScalar c) :
    (loadWorklog (requestToRecord tid d)).description = wl.description ∧
    (loadWorklog (requestToRecord tid d)).duration = wl.duration ∧
    (loadWorklog (requestToRecord tid d)).activity = wl.activity ∧
    (loadWorklog (requestToRecord tid d)).startTime = wl.startTime - wl.startTime % 60 := by
  obtain ⟨h1, h2, h3, h4, h5, h6⟩ := worklogToDict_base resolveIssueId accountId wl d calls h
  refine ⟨h4, h1, ?_, ?_⟩
  · show (match (requestToRecord tid d).attributes with
      | some attrs =>
        match attrs.values with
        | some vs =>
          if vs.isEmpty then none
          else
            match vs.find? (fun x => x.key == "_Activity_") with
            | some activityAttr => some (unquoteCodes activityAttr.value)
            | none => none
        | none => none
      | none => none) = wl.activity
    have hattr : (requestToRecord tid d).attributes =
        d.attributes.map (fun vs => ({ values := some vs } : AttrValues)) := rfl
    rcases hact : wl.activity with _ | a
    · rw [hact] at h6
      rw [hattr, h6]
      rfl
    · rw [hact] at h6
      rw [hattr, h6]
      simp [List.find?, unquote_quote_id a (hval a hact)]
  · show parseDateTime (requestToRecord tid d).startDate (requestToRecord tid d).startTime =
      wl.startTime - wl.startTime % 60
    have hsd : (requestToRecord tid d).startDate = d.startDate := rfl
    have hst : (requestToRecord tid d).startTime = d.startTime := rfl
    rw [hsd, hst, h2, h3, parseDateTime_strfHM00]

/-! ### Lemmas: mutations -/

theorem add_worklog_spec (resolveIssueId : String → Option String) (accountId : String)
    (post : String → WireRequest → MutResp) (worklog : WorkLog) (d : WireRequest)
    (calls : List String)
    (h : worklogToDict resolveIssueId accountId worklog = .ok (d, calls)) :
    add_worklog resolveIssueId accountId post worklog =
      (if (post (makeTempoApiUri "worklogs") d).status = 200 then
        .ok { url := makeTempoApiUri "worklogs", success := true,
              worklog := { worklog with
                second_id := some (post (makeTempoApiUri "worklogs") d).tempoWorklogId } }
      else
        .ok { url := makeTempoApiUri "worklogs", success := false, worklog := worklog }) := by
  unfold add_worklog
  rw [h]

theorem update_worklog_spec (resolveIssueId : String → Option String) (accountId : String)
    (put : String → WireRequest → MutResp) (worklog : WorkLog) (d : WireRequest)
    (calls : List String)
    (h : worklogToDict resolveIssueId accountId worklog = .ok (d, calls)) :
    update_worklog resolveIssueId accountId put worklog =
      (if (put (makeTempoApiUri ("worklogs/" ++ strOptInt worklog.second_id)) d).status =
          200 then
        .ok { url := makeTempoApiUri ("worklogs/" ++ strOptInt worklog.second_id),
              success := true,
              worklog := { worklog with
                second_id := some (put (makeTempoApiUri
                  ("worklogs/" ++ strOptInt worklog.second_id)) d).tempoWorklogId } }
      else
        .ok { url := makeTempoApiUri ("worklogs/" ++ strOptInt worklog.second_id),
              success := false, worklog := worklog }) := by
  unfold update_worklog
  rw [h]

theorem countSchemaMessage_ne_syncError (url : String) (status : Nat) (text : String) :
    countSchemaMessage ≠ syncErrorMessage "get_worklogs" url status text := by
  intro hEq
  have hG : (syncErrorMessage "get_worklogs" url status text).data.head? = some 'g' := by
    unfold syncErrorMessage
    rw [String.data_append, String.data_append, String.data_append, String.data_append,
      String.data_append, String.data_append]
    rw [show ("get_worklogs" : String).data = 'g' :: "et_worklogs".data from rfl]
    simp
  rw [← hEq] at hG
  have hP : countSchemaMessage.data.head? = some 'P' := rfl
  rw [hP] at hG
  exact absurd hG (by decide)

/-! ### Concrete sample data for the witnesses -/

/-- A well-formed wire record. -/
def sampleRecord : TempoRecord :=
  { tempoWorklogId := 7, description := "daily standup", timeSpentSeconds := 900,
    startDate := 17173, startTime := { hh := 10, mm := 30, ss := 0 } }

/-- A backend whose first page is full (count 50) and whose second page
fails with HTTP 500. -/
def errorPageServer : Nat → PageResp := fun i =>
  if i = 0 then
    { status := 200, text := "", count := .cint 50,
      results := List.replicate 50 sampleRecord }
  else
    { status := 500, text := "Internal Server Error", count := .cint 0, results := [] }

/-- A backend whose page metadata carries a non-integer count. -/
def schemaPageServer : Nat → PageResp := fun _ =>
  { status := 200, text := "", count := .cother "fifty", results := [] }

/-! ### The claims -/

/-- Claim C1: against a truthful backend holding `records`, `get_worklogs`
returns the translation of the concatenation of all pages, and issues
`records.length / 50 + 1` page requests — the value of
`floor(total/50) + 1` both when `total % 50 ≠ 0` and when `total % 50 = 0`
(one extra short or empty page detects termination).  Moreover, for every
server answering 200 with integer counts, any terminating run issues
`reqs` requests exactly when the last requested page reported a count
`< 50` and every earlier page reported a count `≥ 50`: the server-reported
metadata count is the sole termination signal. -/
theorem claim_C1 (records : List TempoRecord) (startDate endDate : Int)
    (accountId : String) (fuel : Nat)
    (hfuel : records.length / PAGE_SIZE + 1 ≤ fuel) :
    get_worklogs (honestServer records) startDate endDate accountId fuel =
      some (.ok (loadWorklogsPage records, records.length / PAGE_SIZE + 1)) ∧
    (∀ (server : Nat → PageResp) (counts : Nat → Int) (ws : List WorkLog)
        (reqs fuel2 : Nat),
      (∀ j, (server j).status = 200) →
      (∀ j, (server j).count = .cint (counts j)) →
      get_worklogs server startDate endDate accountId fuel2 = some (.ok (ws, reqs)) →
      1 ≤ reqs ∧ counts (reqs - 1) < (PAGE_SIZE : Int) ∧
        ∀ j, j < reqs - 1 → ¬ counts j < (PAGE_SIZE : Int)) := by
  constructor
  · have h := getWorklogsGo_honest records startDate endDate accountId fuel 0 []
      (by simpa using hfuel)
    unfold get_worklogs
    simpa using h
  · intro server counts ws reqs fuel2 hstat hcnt hrun
    obtain ⟨h1, h2, h3⟩ := getWorklogsGo_ok_loop server startDate endDate accountId counts
      hstat hcnt fuel2 0 [] ws reqs hrun
    exact ⟨h1, h2, fun j hj => h3 j (Nat.zero_le j) hj⟩

theorem claim_C1_witness :
    [sampleRecord].length / PAGE_SIZE + 1 ≤ 1 ∧
    get_worklogs (honestServer [sampleRecord]) 0 86400 "acct" 1 =
      some (.ok (loadWorklogsPage [sampleRecord], [sampleRecord].length / PAGE_SIZE + 1)) :=
  ⟨by decide, (claim_C1 [sampleRecord] 0 86400 "acct" 1 (by decide)).1⟩

/-- Claim C2: when every page before `k` succeeds with a full count and
page `k` answers a non-200 status, `get_worklogs` raises the
synchronization error whose message is built from the full request URL
(base URL, `?`, and the url-encoded query parameters of page `k`), the
status code, and the response body; the run produces an `Except.error`, so
the records accumulated from pages before `k` are discarded, not
returned. -/
theorem claim_C2 (server : Nat → PageResp) (startDate endDate : Int) (accountId : String)
    (k fuel : Nat)
    (hgood : ∀ j, j < k → (server j).status = 200 ∧
      ∃ n : Int, (server j).count = .cint n ∧ (PAGE_SIZE : Int) ≤ n)
    (hbad : (server k).status ≠ 200) (hfuel : k < fuel) :
    get_worklogs server startDate endDate accountId fuel =
      some (.error (syncErrorMessage "get_worklogs"
        (makeTempoApiUri "worklogs" ++ "?" ++
          urlencode (worklogsParams startDate endDate accountId k))
        (server k).status (server k).text)) :=
  getWorklogsGo_error server startDate endDate accountId k hgood hbad fuel 0 []
    (Nat.zero_le k) (by omega)

theorem claim_C2_witness :
    (errorPageServer 1).status ≠ 200 ∧
    get_worklogs errorPageServer 0 86400 "acct" 2 =
      some (.error (syncErrorMessage "get_worklogs"
        (makeTempoApiUri "worklogs" ++ "?" ++ urlencode (worklogsParams 0 86400 "acct" 1))
        (errorPageServer 1).status (errorPageServer 1).text)) :=
  ⟨by decide, claim_C2 errorPageServer 0 86400 "acct" 1 2
    (fun j hj => by
      have hj0 : j = 0 := by omega
      subst hj0
      exact ⟨rfl, 50, rfl, by decide⟩)
    (by decide) (by decide)⟩

/-- Claim C8: when the page loop reaches a 200 page whose metadata count is
not an integer, `get_worklogs` raises the fixed schema-violation
synchronization failure, and this message differs from every HTTP-error
message (those begin with the method name `get_worklogs`, the schema
message with `Page`). -/
theorem claim_C8 (server : Nat → PageResp) (startDate endDate : Int) (accountId : String)
    (k fuel : Nat) (raw : String)
    (hgood : ∀ j, j < k → (server j).status = 200 ∧
      ∃ n : Int, (server j).count = .cint n ∧ (PAGE_SIZE : Int) ≤ n)
    (hst : (server k).status = 200) (hbad : (server k).count = .cother raw)
    (hfuel : k < fuel) :
    get_worklogs server startDate endDate accountId fuel =
      some (.error countSchemaMessage) ∧
    ∀ url status text, countSchemaMessage ≠ syncErrorMessage "get_worklogs" url status text :=
  ⟨getWorklogsGo_schemaErr server startDate endDate accountId k raw hgood hst hbad fuel 0 []
    (Nat.zero_le k) (by omega),
   countSchemaMessage_ne_syncError⟩

theorem claim_C8_witness :
    (schemaPageServer 0).count = .cother "fifty" ∧
    get_worklogs schemaPageServer 0 86400 "acct" 1 = some (.error countSchemaMessage) :=
  ⟨rfl, (claim_C8 schemaPageServer 0 86400 "acct" 0 1 "fifty"
    (fun j hj => absurd hj (by omega)) rfl rfl (by decide)).1⟩

/-- A worklog whose start time has a non-zero seconds part (00:00:30). -/
def cexStartWl : WorkLog :=
  { key := none, description := "x", startTime := 30, endTime := 90, duration := 60,
    activity := none }

/-- Claim C3, counterexample: the write direction renders the start time
with `strftime("%H:%M:00")`, so a worklog starting at 00:00:30 comes back
from the read direction with `startTime` 00:00:00 — the round trip does
not reproduce `startTime` exactly for every `WorkLog`. -/
theorem claim_C3_counterexample :
    (worklogToDict (fun _ => none) "acct" cexStartWl).map
      (fun p => (loadWorklog (requestToRecord 1 p.1)).startTime) = .ok 0 ∧
    cexStartWl.startTime = 30 ∧ (0 : Int) ≠ 30 :=
  ⟨rfl, rfl, by decide⟩

/-- Claim C3 (amended): translating a `WorkLog` to the wire format and back
(ignoring the server-assigned `tempoWorklogId`) reproduces `description`,
`duration` and `activity` exactly, and reproduces `startTime` truncated to
the whole minute — exactly equal precisely when the start time's seconds
part is zero, because the write direction forces the seconds to `00`. -/
theorem claim_C3_amended (resolveIssueId : String → Option String) (accountId : String)
    (wl : WorkLog) (d : WireRequest) (calls : List String) (tid : Int)
    (h : worklogToDict resolveIssueId accountId wl = .ok (d, calls))
    (hval : ∀ a, wl.activity = some a → ∀ c ∈ a, ValidScalar c) :
    (loadWorklog (requestToRecord tid d)).description = wl.description ∧
    (loadWorklog (requestToRecord tid d)).duration = wl.duration ∧
    (loadWorklog (requestToRecord tid d)).activity = wl.activity ∧
    (loadWorklog (requestToRecord tid d)).startTime = wl.startTime - wl.startTime % 60 ∧
    (wl.startTime % 60 = 0 →
      (loadWorklog (requestToRecord tid d)).startTime = wl.startTime) := by
  obtain ⟨h1, h2, h3, h4⟩ :=
    loadWorklog_roundTrip_fields resolveIssueId accountId wl d calls tid h hval
  refine ⟨h1, h2, h3, h4, fun hz => ?_⟩
  rw [h4, hz]
  ring

/-- A worklog starting on a whole minute, with an activity containing
reserved URL characters. -/
def w3 : WorkLog :=
  { key := none, description := "code review", startTime := 60, endTime := 120,
    duration := 60, activity := some (strCodes "dev / review") }

/-- The body `__worklog_to_dict` builds for `w3`. -/
def d3 : WireRequest :=
  { timeSpentSeconds := 60, startDate := 0, startTime := { hh := 0, mm := 1, ss := 0 },
    description := "code review", authorAccountId := "acct",
    attributes := some [{ key := "_Activity_", value := quoteCodes (strCodes "dev / review") }] }

theorem claim_C3_amended_witness :
    worklogToDict (fun _ => none) "acct" w3 = .ok (d3, []) ∧
    ((loadWorklog (requestToRecord 1 d3)).description = w3.description ∧
      (loadWorklog (requestToRecord 1 d3)).duration = w3.duration ∧
      (loadWorklog (requestToRecord 1 d3)).activity = w3.activity ∧
      (loadWorklog (requestToRecord 1 d3)).startTime = w3.startTime - w3.startTime % 60 ∧
      (w3.startTime % 60 = 0 →
        (loadWorklog (requestToRecord 1 d3)).startTime = w3.startTime)) :=
  ⟨rfl, claim_C3_amended (fun _ => none) "acct" w3 d3 [] 1 rfl
    (fun a ha => by
      rw [show w3.activity = some (strCodes "dev / review") from rfl] at ha
      injection ha with h2
      subst h2
      decide)⟩

/-- Claim C4: every `WorkLog` the read direction produces satisfies
`endTime - startTime = duration` exactly, in whole seconds, because
`endTime` is constructed as `startTime + timedelta(seconds=duration)`. -/
theorem claim_C4 (rs : List TempoRecord) (wl : WorkLog) (h : wl ∈ loadWorklogsPage rs) :
    wl.endTime - wl.startTime = wl.duration := by
  unfold loadWorklogsPage at h
  obtain ⟨r, hr, hwl⟩ := List.mem_map.mp h
  subst hwl
  have he : (loadWorklog r).endTime =
      parseDateTime r.startDate r.startTime + r.timeSpentSeconds := rfl
  have hs : (loadWorklog r).startTime = parseDateTime r.startDate r.startTime := rfl
  have hd : (loadWorklog r).duration = r.timeSpentSeconds := rfl
  rw [he, hs, hd]
  ring

theorem claim_C4_witness :
    loadWorklog sampleRecord ∈ loadWorklogsPage [sampleRecord] ∧
    (loadWorklog sampleRecord).endTime - (loadWorklog sampleRecord).startTime =
      (loadWorklog sampleRecord).duration :=
  ⟨by decide, claim_C4 [sampleRecord] (loadWorklog sampleRecord) (by decide)⟩

/-- Claim C5: a wire record whose `issue` object has an `id` but no `key`
is translated into a `WorkLog` with the synthetic key `"ISSUE-<id>"`, and
serializing any `WorkLog` carrying such a key emits `issueId = <id>` as a
number (no `issueKey`), with an empty resolver-call trace — the issue-key
resolver is not consulted. -/
theorem claim_C5 (r : TempoRecord) (issue : Issue) (n : Nat)
    (hiss : r.issue = some issue) (hkey : issue.key = none) (hid : issue.id = some n)
    (resolveIssueId : String → Option String) (accountId : String) (wl : WorkLog)
    (hwl : wl.key = some ("ISSUE-" ++ natStr n)) :
    (loadWorklog r).key = some ("ISSUE-" ++ natStr n) ∧
    worklogToDict resolveIssueId accountId wl =
      .ok ({ timeSpentSeconds := wl.duration, startDate := dayOf wl.startTime,
             startTime := strfHM00 wl.startTime, description := wl.description,
             authorAccountId := accountId,
             attributes := wl.activity.map
               (fun a => [{ key := "_Activity_", value := quoteCodes a }]),
             issueId := some (.num (n : Int)), issueKey := none }, []) := by
  constructor
  · have hk : (loadWorklog r).key =
        (match r.issue with
          | some issue =>
            match issue.key with
            | some k => some k
            | none =>
              match issue.id with
              | some i => some ("ISSUE-" ++ natStr i)
              | none => none
          | none => none) := rfl
    rw [hk, hiss]
    dsimp only
    rw [hkey]
    dsimp only
    rw [hid]
  · exact worklogToDict_synthetic resolveIssueId accountId wl n hwl

/-- A wire record carrying only an issue id. -/
def idOnlyRecord : TempoRecord :=
  { tempoWorklogId := 5, issue := some { key := none, id := some 123 },
    description := "fix", timeSpentSeconds := 300, startDate := 17173,
    startTime := { hh := 9, mm := 0, ss := 0 } }

/-- A worklog carrying the synthetic key for issue id 123. -/
def syntheticWl : WorkLog :=
  { key := some "ISSUE-123", description := "fix", startTime := 0, endTime := 300,
    duration := 300 }

theorem claim_C5_witness :
    idOnlyRecord.issue = some { key := none, id := some 123 } ∧
    (loadWorklog idOnlyRecord).key = some ("ISSUE-" ++ natStr 123) ∧
    worklogToDict (fun _ => some "999") "acct" syntheticWl =
      .ok ({ timeSpentSeconds := 300, startDate := 0,
             startTime := { hh := 0, mm := 0, ss := 0 }, description := "fix",
             authorAccountId := "acct", attributes := none,
             issueId := some (.num 123), issueKey := none }, []) := by
  have h := claim_C5 idOnlyRecord { key := none, id := some 123 } 123 rfl rfl rfl
    (fun _ => some "999") "acct" syntheticWl rfl
  exact ⟨rfl, h.1, h.2⟩

/-- The endpoint the update for worklog id 42 must address. -/
def uri42 : String := "https://api.tempo.io/4/worklogs/42"

/-- Claim C6: `update` on a worklog whose `secondId` is 42 PUTs to the
endpoint for id 42, and on a 200 response stores the `tempoWorklogId`
taken from the response body into `secondId` — in particular it stays 42
exactly when the server echoes 42, but it is always the response value. -/
theorem claim_C6 (resolveIssueId : String → Option String) (accountId : String)
    (put : String → WireRequest → MutResp) (wl : WorkLog) (d : WireRequest)
    (calls : List String) (hsid : wl.second_id = some 42)
    (h : worklogToDict resolveIssueId accountId wl = .ok (d, calls)) :
    update_worklog resolveIssueId accountId put wl =
      (if (put uri42 d).status = 200 then
        .ok { url := uri42, success := true,
              worklog := { wl with second_id := some (put uri42 d).tempoWorklogId } }
      else
        .ok { url := uri42, success := false, worklog := wl }) ∧
    ((put uri42 d).status = 200 → (put uri42 d).tempoWorklogId = 42 →
      update_worklog resolveIssueId accountId put wl =
        .ok { url := uri42, success := true,
              worklog := { wl with second_id := some 42 } }) := by
  have hurl : makeTempoApiUri ("worklogs/" ++ strOptInt wl.second_id) = uri42 := by
    rw [hsid]
    rfl
  have hspec := update_worklog_spec resolveIssueId accountId put wl d calls h
  rw [hurl] at hspec
  refine ⟨hspec, fun h200 hecho => ?_⟩
  rw [hspec, if_pos h200, hecho]

/-- A worklog already persisted remotely as id 42. -/
def wl42 : WorkLog :=
  { second_id := some 42, key := none, description := "w", startTime := 0, endTime := 0,
    duration := 0 }

/-- The body `__worklog_to_dict` builds for `wl42`. -/
def d42 : WireRequest :=
  { timeSpentSeconds := 0, startDate := 0, startTime := { hh := 0, mm := 0, ss := 0 },
    description := "w", authorAccountId := "acct" }

/-- A server that accepts the PUT and echoes worklog id 42. -/
def echoPut : String → WireRequest → MutResp := fun _ _ =>
  { status := 200, text := "", tempoWorklogId := 42 }

theorem claim_C6_witness :
    wl42.second_id = some 42 ∧
    update_worklog (fun _ => none) "acct" echoPut wl42 =
      .ok { url := uri42, success := true,
            worklog := { wl42 with second_id := some 42 } } := by
  have h := claim_C6 (fun _ => none) "acct" echoPut wl42 d42 [] rfl rfl
  exact ⟨rfl, h.2 rfl rfl⟩

/-- Claim C7, counterexample: `delete_worklog` returns `requests`'
`Response.ok`, which is true for every status below 400 — a 304 response
yields `true` although 304 is not a 2xx status, so the flag is not "true
exactly when the status is 2xx". -/
theorem claim_C7_counterexample :
    (delete_worklog (fun _ => { status := 304, text := "", tempoWorklogId := 0 }) wl42).2 =
      true ∧
    ¬ (200 ≤ 304 ∧ 304 < 300) := by decide

/-- Claim C7 (amended): `delete` issues the DELETE to the endpoint
addressed by the worklog's `secondId` and returns the raw HTTP success
flag of the `requests` library, which is true exactly when the response
status is below 400 (2xx and 3xx alike). -/
theorem claim_C7_amended (deleteReq : String → MutResp) (wl : WorkLog) (m : Int)
    (hsid : wl.second_id = some m) :
    delete_worklog deleteReq wl =
      (makeTempoApiUri ("worklogs/" ++ intStr m),
        response_ok (deleteReq (makeTempoApiUri ("worklogs/" ++ intStr m))).status) ∧
    ((delete_worklog deleteReq wl).2 = true ↔
      (deleteReq (makeTempoApiUri ("worklogs/" ++ intStr m))).status < 400) := by
  have h1 : delete_worklog deleteReq wl =
      (makeTempoApiUri ("worklogs/" ++ intStr m),
        response_ok (deleteReq (makeTempoApiUri ("worklogs/" ++ intStr m))).status) := by
    unfold delete_worklog
    rw [hsid]
    rfl
  refine ⟨h1, ?_⟩
  rw [h1]
  unfold response_ok
  simp

/-- A server answering 204 No Content to the DELETE. -/
def del204 : String → MutResp := fun _ => { status := 204, text := "", tempoWorklogId := 0 }

theorem claim_C7_amended_witness :
    wl42.second_id = some 42 ∧
    delete_worklog del204 wl42 =
      (makeTempoApiUri ("worklogs/" ++ intStr 42),
        response_ok (del204 (makeTempoApiUri ("worklogs/" ++ intStr 42))).status) :=
  ⟨rfl, (claim_C7_amended del204 wl42 42 rfl).1⟩

/-- Claim C10: on any non-200 response, `add_worklog` and `update_worklog`
return `False` and leave the worklog unchanged — `secondId` keeps the value
it had before the call; it is reassigned only by the 200 branch. -/
theorem claim_C10 (resolveIssueId : String → Option String) (accountId : String)
    (wl : WorkLog) (d : WireRequest) (calls : List String)
    (h : worklogToDict resolveIssueId accountId wl = .ok (d, calls))
    (post put : String → WireRequest → MutResp)
    (hpost : (post (makeTempoApiUri "worklogs") d).status ≠ 200)
    (hput : (put (makeTempoApiUri ("worklogs/" ++ strOptInt wl.second_id)) d).status ≠ 200) :
    add_worklog resolveIssueId accountId post wl =
      .ok { url := makeTempoApiUri "worklogs", success := false, worklog := wl } ∧
    update_worklog resolveIssueId accountId put wl =
      .ok { url := makeTempoApiUri ("worklogs/" ++ strOptInt wl.second_id),
            success := false, worklog := wl } := by
  constructor
  · rw [add_worklog_spec resolveIssueId accountId post wl d calls h, if_neg hpost]
  · rw [update_worklog_spec resolveIssueId accountId put wl d calls h, if_neg hput]

/-- A server failing every mutation with HTTP 500. -/
def err500 : String → WireRequest → MutResp := fun _ _ =>
  { status := 500, text := "err", tempoWorklogId := 0 }

theorem claim_C10_witness :
    (err500 (makeTempoApiUri "worklogs") d42).status ≠ 200 ∧
    add_worklog (fun _ => none) "acct" err500 wl42 =
      .ok { url := makeTempoApiUri "worklogs", success := false, worklog := wl42 } ∧
    update_worklog (fun _ => none) "acct" err500 wl42 =
      .ok { url := makeTempoApiUri ("worklogs/" ++ strOptInt wl42.second_id),
            success := false, worklog := wl42 } := by
  have h := claim_C10 (fun _ => none) "acct" wl42 d42 [] rfl err500 err500
    (by decide) (by decide)
  exact ⟨by decide, h.1, h.2⟩

/-- Claim C9: percent-encoding an activity string with the write
direction's `quote(..., safe='')` and decoding it with the read
direction's `unquote` returns the original string, for every encodable
Python string (unicode scalar sequences), in particular for strings full
of reserved URL characters.  (`quote` with `safe=''` still passes
unreserved ASCII through unescaped; the round trip holds regardless.) -/
theorem claim_C9 (s : List Nat) (hs : ∀ c ∈ s, ValidScalar c) :
    unquoteCodes (quoteCodes s) = s :=
  unquote_quote_id s hs

theorem claim_C9_witness :
    (∀ c ∈ strCodes "dev / review+100% €", ValidScalar c) ∧
    unquoteCodes (quoteCodes (strCodes "dev / review+100% €")) =
      strCodes "dev / review+100% €" :=
  ⟨by decide, claim_C9 (strCodes "dev / review+100% €") (by decide)⟩

end Tempo
